import Mathlib

/-
  Verification development for the rss-to-notion ingest pipeline
  (src/ingest.py). The Python source is shallowly embedded: pure helpers
  become Lean functions, Python exceptions become Except, the parsed HTML
  DOM (the output of the external BeautifulSoup/lxml collaborator) is an
  inductive tree, machine-independent library calls (hashlib.sha256,
  urllib.parse) are modelled by executable Lean definitions.
-/

set_option maxRecDepth 1000000

/- ---------- Python semantics helpers ---------- -/

/-- Truthiness of an optional Python string: None and the empty string are
falsy, every other string is truthy. -/
def truthyOpt : Option String → Bool
  | none => false
  | some s => if s = "" then false else true

/-- Python str conversion of an optional string: str(None) is the literal
string None. -/
def pyStr : Option String → String
  | none => "None"
  | some s => s

/-- Lower-casing a string character by character, modelling str.lower() for
the ASCII tag names this program handles. Defined over the character list so
that it reduces in the kernel. -/
def strLower (s : String) : String := String.mk (s.data.map Char.toLower)

/-- White-space test matching the characters Python str.strip() removes for
ASCII input. -/
def isPySpace (c : Char) : Bool :=
  c = ' ' || c = '\t' || c = '\n' || c = '\r' || c = '\x0b' || c = '\x0c'

/-- Model of Python str.strip(): remove leading and trailing whitespace. -/
def pyStrip (s : String) : String :=
  String.mk (((s.data.dropWhile isPySpace).reverse.dropWhile isPySpace).reverse)

/-- Model of str.startswith, defined over character lists so that it reduces
in the kernel. -/
def strStarts (s pre : String) : Bool := pre.data.isPrefixOf s.data

/-- Model of sep.join(parts) from Python. -/
def pyJoin (sep : String) : List String → String
  | [] => ""
  | p :: ps => ps.foldl (fun acc q => acc ++ sep ++ q) p

/-- Python exceptions that the embedded fragments can raise. -/
inductive PyErr where
  | unboundLocal (name : String)
  | typeError (msg : String)
  | attributeError (msg : String)
deriving DecidableEq, Repr

deriving instance DecidableEq for Except

/- ---------- Model of hashlib.sha256 (FIPS 180-4) ---------- -/

namespace SHA256

def M32 : Nat := 4294967296

def add32 (a b : Nat) : Nat := (a + b) % M32

def rotr (n x : Nat) : Nat := ((x >>> n) ||| (x <<< (32 - n))) % M32

def xor3 (a b c : Nat) : Nat := Nat.xor (Nat.xor a b) c

def chf (x y z : Nat) : Nat := Nat.xor (Nat.land x y) (Nat.land (M32 - 1 - x) z)

def majf (x y z : Nat) : Nat := xor3 (Nat.land x y) (Nat.land x z) (Nat.land y z)

def bigSigma0 (x : Nat) : Nat := xor3 (rotr 2 x) (rotr 13 x) (rotr 22 x)

def bigSigma1 (x : Nat) : Nat := xor3 (rotr 6 x) (rotr 11 x) (rotr 25 x)

def smallSigma0 (x : Nat) : Nat := xor3 (rotr 7 x) (rotr 18 x) (x >>> 3)

def smallSigma1 (x : Nat) : Nat := xor3 (rotr 17 x) (rotr 19 x) (x >>> 10)

def K : List Nat :=
  [1116352408, 1899447441, 3049323471, 3921009573,
   961987163, 1508970993, 2453635748, 2870763221,
   3624381080, 310598401, 607225278, 1426881987,
   1925078388, 2162078206, 2614888103, 3248222580,
   3835390401, 4022224774, 264347078, 604807628,
   770255983, 1249150122, 1555081692, 1996064986,
   2554220882, 2821834349, 2952996808, 3210313671,
   3336571891, 3584528711, 113926993, 338241895,
   666307205, 773529912, 1294757372, 1396182291,
   1695183700, 1986661051, 2177026350, 2456956037,
   2730485921, 2820302411, 3259730800, 3345764771,
   3516065817, 3600352804, 4094571909, 275423344,
   430227734, 506948616, 659060556, 883997877,
   958139571, 1322822218, 1537002063, 1747873779,
   1955562222, 2024104815, 2227730452, 2361852424,
   2428436474, 2756734187, 3204031479, 3329325298]

/-- Big-endian 8-byte encoding of the bit length, as required by the SHA-256
padding rule. -/
def lenBytes8 (n : Nat) : List Nat :=
  [(n >>> 56) % 256, (n >>> 48) % 256, (n >>> 40) % 256, (n >>> 32) % 256,
   (n >>> 24) % 256, (n >>> 16) % 256, (n >>> 8) % 256, n % 256]

/-- SHA-256 message padding: append 0x80, zero bytes to 56 mod 64, then the
64-bit big-endian bit length. -/
def padMessage (msg : List Nat) : List Nat :=
  let len := msg.length
  let zeros := (64 - (len + 9) % 64) % 64
  msg ++ [128] ++ List.replicate zeros 0 ++ lenBytes8 (8 * len)

/-- Splits a byte list into chunks of the given size; fuel-based so that the
definition is structurally recursive. -/
def chunksGo (size : Nat) : Nat → List Nat → List (List Nat)
  | _, [] => []
  | 0, _ :: _ => []
  | fuel + 1, b :: bs => (b :: bs).take size :: chunksGo size fuel ((b :: bs).drop size)

def chunksOf (size : Nat) (bs : List Nat) : List (List Nat) := chunksGo size bs.length bs

/-- Big-endian combination of groups of four bytes into 32-bit words. -/
def bytesToWords : List Nat → List Nat
  | b0 :: b1 :: b2 :: b3 :: rest => (((b0 * 256 + b1) * 256 + b2) * 256 + b3) :: bytesToWords rest
  | _ => []

/-- Extends the 16-word block to the 64-word message schedule. -/
def extendW : Nat → List Nat → List Nat
  | 0, w => w
  | steps + 1, w =>
    let n := w.length
    let w2 := w.getD (n - 2) 0
    let w7 := w.getD (n - 7) 0
    let w15 := w.getD (n - 15) 0
    let w16 := w.getD (n - 16) 0
    extendW steps (w ++ [add32 (add32 (smallSigma1 w2) w7) (add32 (smallSigma0 w15) w16)])

def schedule (w16 : List Nat) : List Nat := extendW 48 w16

structure Hash8 where
  a : Nat
  b : Nat
  c : Nat
  d : Nat
  e : Nat
  f : Nat
  g : Nat
  hh : Nat
deriving DecidableEq, Repr

def compressStep (st : Hash8) (kw : Nat × Nat) : Hash8 :=
  let t1 := add32 (add32 st.hh (bigSigma1 st.e)) (add32 (chf st.e st.f st.g) (add32 kw.1 kw.2))
  let t2 := add32 (bigSigma0 st.a) (majf st.a st.b st.c)
  ⟨add32 t1 t2, st.a, st.b, st.c, add32 st.d t1, st.e, st.f, st.g⟩

def compressBlock (H : Hash8) (block : List Nat) : Hash8 :=
  let w := schedule (bytesToWords block)
  let s := (K.zip w).foldl compressStep H
  ⟨add32 H.a s.a, add32 H.b s.b, add32 H.c s.c, add32 H.d s.d,
   add32 H.e s.e, add32 H.f s.f, add32 H.g s.g, add32 H.hh s.hh⟩

def H0 : Hash8 :=
  ⟨1779033703, 3144134277, 1013904242, 2773480762,
   1359893119, 2600822924, 528734635, 1541459225⟩

def sha256Words (msg : List Nat) : Hash8 :=
  (chunksOf 64 (padMessage msg)).foldl compressBlock H0

def hexDigit (n : Nat) : Char := if n < 10 then Char.ofNat (48 + n) else Char.ofNat (87 + n)

def hexWord (w : Nat) : List Char :=
  [hexDigit ((w >>> 28) % 16), hexDigit ((w >>> 24) % 16), hexDigit ((w >>> 20) % 16),
   hexDigit ((w >>> 16) % 16), hexDigit ((w >>> 12) % 16), hexDigit ((w >>> 8) % 16),
   hexDigit ((w >>> 4) % 16), hexDigit (w % 16)]

def hexOfHash (s : Hash8) : List Char :=
  hexWord s.a ++ hexWord s.b ++ hexWord s.c ++ hexWord s.d ++
  hexWord s.e ++ hexWord s.f ++ hexWord s.g ++ hexWord s.hh

end SHA256

/-- UTF-8 encoding of one character, modelling str.encode(). -/
def utf8Bytes (c : Char) : List Nat :=
  let n := c.toNat
  if n < 128 then [n]
  else if n < 2048 then [192 + n / 64, 128 + n % 64]
  else if n < 65536 then [224 + n / 4096, 128 + (n / 64) % 64, 128 + n % 64]
  else [240 + n / 262144, 128 + (n / 4096) % 64, 128 + (n / 64) % 64, 128 + n % 64]

def strBytes (s : String) : List Nat := (s.data.map utf8Bytes).flatten

/-- Hex digest characters of hashlib.sha256(s.encode()).hexdigest(). -/
def sha256hexChars (s : String) : List Char :=
  SHA256.hexOfHash (SHA256.sha256Words (strBytes s))

def sha256hex (s : String) : String := String.mk (sha256hexChars s)

/- ---------- State management (src/ingest.py lines 76-94) ---------- -/

/-- Embedding of seen_key (written _seen_key in src/ingest.py lines 88-94):
the feed-qualified dedup key, sha256 of the concatenation of the feed URL
with (guid or link or the empty string), hex digest truncated to 32
characters. Slicing the all-ASCII hex digest with [:32] is modelled as
taking the first 32 characters. -/
def seen_key (feed_url : String) (guid link : Option String) : String :=
  let base := if truthyOpt guid then guid.getD ""
              else if truthyOpt link then link.getD "" else ""
  String.mk ((sha256hexChars (feed_url ++ base)).take 32)

/-- JSON values at the depth load_state inspects them. Nested containers
inside the top-level value are summarised by their kind (arr, obj), which is
the only property set() needs from them (hashability). -/
inductive JsonElem where
  | null
  | bool (b : Bool)
  | num (n : Int)
  | str (s : String)
  | arr
  | obj
deriving DecidableEq, Repr

/-- A parsed top-level JSON value. For an object only the keys matter here,
because iterating a Python dict yields its keys. -/
inductive Json where
  | null
  | bool (b : Bool)
  | num (n : Int)
  | str (s : String)
  | arr (elems : List JsonElem)
  | obj (keys : List String)
deriving DecidableEq, Repr

def JsonElem.hashable : JsonElem → Bool
  | .arr => false
  | .obj => false
  | _ => true

/-- Model of Python set(j) on a parsed JSON value: lists iterate their
elements, strings iterate their characters, dicts iterate their keys; other
values raise TypeError (not iterable), and unhashable elements raise
TypeError as well. -/
def pySet : Json → Except PyErr (List JsonElem)
  | .arr xs =>
    if xs.all JsonElem.hashable then .ok xs.dedup
    else .error (.typeError "unhashable type")
  | .str s => .ok ((s.data.map (fun ch => JsonElem.str (String.mk [ch]))).dedup)
  | .obj ks => .ok ((ks.map JsonElem.str).dedup)
  | .null => .error (.typeError "not iterable")
  | .bool _ => .error (.typeError "not iterable")
  | .num _ => .error (.typeError "not iterable")

/-- Embedding of load_state (written _load_state in src/ingest.py lines
76-83). The input models the state file: none when the file does not exist,
some (error _) when json.loads raises JSONDecodeError (json.loads itself is
the external library), some (ok j) when the content parses to the JSON value
j. The boolean in the result records whether log.error was called. Only
JSONDecodeError is caught; set() applied to a non-iterable parsed value
raises TypeError, which propagates. -/
def load_state (file : Option (Except Unit Json)) : Except PyErr (List JsonElem × Bool) :=
  match file with
  | none => .ok ([], false)
  | some (.error _) => .ok ([], true)
  | some (.ok j) =>
    match pySet j with
    | .ok s => .ok (s, false)
    | .error e => .error e

/- ---------- URL handling (urllib.parse model and _normalize_url) ---------- -/

def isSchemeChar (c : Char) : Bool := c.isAlphanum || c = '+' || c = '-' || c = '.'

/-- Model of the scheme split urllib.parse performs: when the text before the
first colon is a letter followed by scheme characters, that prefix
(lower-cased) is the scheme and the remainder follows the colon. -/
def schemeSplit (s : String) : Option (String × String) :=
  match s.data.findIdx? (fun c => c = ':') with
  | none => none
  | some i =>
    match s.data.take i with
    | [] => none
    | c :: rest =>
      if c.isAlpha && (c :: rest).all isSchemeChar then
        some (String.mk ((c :: rest).map Char.toLower), String.mk (s.data.drop (i + 1)))
      else none

structure UrlParts where
  scheme : String
  netloc : String
  rest : String
deriving DecidableEq, Repr

/-- Model of urllib.parse.urlparse restricted to the fields this program
reads: scheme, netloc and the remainder. -/
def urlparse (s : String) : UrlParts :=
  let p := match schemeSplit s with
    | some q => q
    | none => ("", s)
  if strStarts p.2 "//" then
    let after := p.2.data.drop 2
    let nl := after.takeWhile (fun c => !(c = '/' || c = '?' || c = '#'))
    ⟨p.1, String.mk nl, String.mk (after.drop nl.length)⟩
  else ⟨p.1, "", p.2⟩

/-- Prefix of a path up to and including its last slash. -/
def dirOf (cs : List Char) : List Char := (cs.reverse.dropWhile (fun c => c ≠ '/')).reverse

/-- Resolves a relative reference against a base URL; dot-segment
normalisation is not modelled, which no theorem below relies on. -/
def resolveRelative (base rel : String) : String :=
  let b := urlparse base
  let schemePart := if b.scheme = "" then "" else b.scheme ++ ":"
  let root := schemePart ++ (if b.netloc = "" then "" else "//" ++ b.netloc)
  if strStarts rel "//" then schemePart ++ rel
  else if strStarts rel "/" then root ++ rel
  else root ++ String.mk (dirOf b.rest.data) ++ rel

/-- Model of urllib.parse.urljoin. The fact the theorems rely on is that a
reference whose scheme differs from the base scheme is returned unchanged,
which matches both RFC 3986 and the library. -/
def urljoin (base url : String) : String :=
  if url = "" then base
  else match schemeSplit url with
    | some p => if p.1 = (urlparse base).scheme && !(strStarts p.2 "//") then resolveRelative base p.2 else url
    | none => resolveRelative base url

/-- Embedding of normalize_url (written _normalize_url in src/ingest.py lines
187-199): falsy href yields None; stripped hrefs starting with javascript:,
data:, about: or # are dropped; with a truthy base URL the urljoin result is
returned (with no further scheme check); without one, only absolute http or
https URLs with a network location are kept. -/
def normalize_url (href : Option String) (base_url : Option String) : Option String :=
  match href with
  | none => none
  | some h0 =>
    if h0 = "" then none
    else
      let h := pyStrip h0
      if strStarts h "javascript:" || strStarts h "data:" || strStarts h "about:" || strStarts h "#" then
        none
      else if truthyOpt base_url then some (urljoin (base_url.getD "") h)
      else
        let p := urlparse h
        if (p.scheme = "http" ∨ p.scheme = "https") ∧ p.netloc ≠ "" then some h
        else none

/- ---------- Parsed HTML DOM (output of the BeautifulSoup collaborator) ---------- -/

/-- A parsed HTML node: either a NavigableString or a Tag with a name,
attributes and children. -/
inductive Node where
  | text (s : String)
  | tag (name : String) (attrs : List (String × String)) (children : List Node)

mutual

/-- All NavigableStrings below a node in document order, as bs4 exposes them
through the strings generator. -/
def Node.strings : Node → List String
  | .text s => [s]
  | .tag _ _ cs => Node.stringsList cs

def Node.stringsList : List Node → List String
  | [] => []
  | n :: ns => Node.strings n ++ Node.stringsList ns

end

/-- Model of bs4 get_text(sep): the strings of the subtree joined by sep. -/
def Node.getText (sep : String) (n : Node) : String := pyJoin sep (Node.strings n)

/-- Model of the bs4 text property, get_text with the empty separator. -/
def Node.textContent (n : Node) : String := Node.getText "" n

/-- Model of Tag.get(key): the attribute value, or None when absent. -/
def Node.attr : Node → String → Option String
  | .text _, _ => none
  | .tag _ attrs _, k => attrs.lookup k

/- ---------- Rich text objects (src/ingest.py lines 267-343) ---------- -/

/-- The annotation set of a Notion text object (src/ingest.py text_obj). -/
structure Ann where
  bold : Bool
  italic : Bool
  strikethrough : Bool
  underline : Bool
  code : Bool
  color : String
deriving DecidableEq, Repr

/-- The annotations text_obj produces when no flags are passed. -/
def defaultAnn : Ann := ⟨false, false, false, false, false, "default"⟩

/-- Setting one named annotation flag, modelling new_ann[INLINE_TAGS[tag]] = True. -/
def Ann.set : Ann → String → Ann
  | ⟨b, i, st, u, c, col⟩, k =>
    if k = "bold" then ⟨true, i, st, u, c, col⟩
    else if k = "italic" then ⟨b, true, st, u, c, col⟩
    else if k = "strikethrough" then ⟨b, i, true, u, c, col⟩
    else if k = "underline" then ⟨b, i, st, true, c, col⟩
    else if k = "code" then ⟨b, i, st, u, true, col⟩
    else ⟨b, i, st, u, c, col⟩

/-- One Notion rich text span: content, annotations, optional link target. -/
structure RichText where
  content : String
  annotations : Ann
  link : Option String
deriving DecidableEq, Repr

/-- Embedding of text_obj (src/ingest.py lines 267-283). -/
def text_obj (content : String) (ann : Ann) : RichText := ⟨content, ann, none⟩

/-- Embedding of link_text_obj (src/ingest.py lines 286-292). -/
def link_text_obj (content url : String) (ann : Ann) : RichText := ⟨content, ann, some url⟩

/-- The INLINE_TAGS table (src/ingest.py lines 34-43). -/
def INLINE_TAGS : List (String × String) :=
  [("b", "bold"), ("strong", "bold"), ("i", "italic"), ("em", "italic"),
   ("code", "code"), ("s", "strikethrough"), ("del", "strikethrough"), ("u", "underline")]

mutual

/-- Embedding of build_rich_text_inline (src/ingest.py lines 295-343),
including its two unbound-local defects, modelled exactly as Python raises
them: in the Tag branch the local variable s is never assigned, so a truthy
inherited href raises UnboundLocalError there; the local new_href is
assigned only under tag == a, so recursing into the children of any other
tag reads an unassigned local and raises UnboundLocalError. The recursive
call passes only (child, new_ann, new_href), so children are processed with
base_url = None. -/
def build_rich_text_inline : Node → Ann → Option String → Option String → Except PyErr (List RichText)
  | .text s, ann, href, _ =>
    if s = "" then .ok []
    else if truthyOpt href then .ok [link_text_obj s (href.getD "") ann]
    else .ok [text_obj s ann]
  | .tag name attrs children, ann, href, base_url =>
    let tag := strLower name
    if tag = "br" then .ok [text_obj "\n" ann]
    else
      let new_ann := match INLINE_TAGS.lookup tag with
        | some flag => Ann.set ann flag
        | none => ann
      let new_href_local : Option (Option String) :=
        if tag = "a" then some (normalize_url (Node.attr (.tag name attrs children) "href") base_url)
        else none
      if truthyOpt href then .error (.unboundLocal "s")
      else
        let out := [text_obj (Node.textContent (.tag name attrs children)) ann]
        match new_href_local with
        | none =>
          if children.isEmpty then .ok out else .error (.unboundLocal "new_href")
        | some new_href => do
          let rest ← build_rich_text_list children new_ann new_href
          .ok (out ++ rest)

def build_rich_text_list : List Node → Ann → Option String → Except PyErr (List RichText)
  | [], _, _ => .ok []
  | n :: ns, ann, href => do
    let r ← build_rich_text_inline n ann href none
    let rs ← build_rich_text_list ns ann href
    .ok (r ++ rs)

end

/- ---------- Blocks (src/ingest.py lines 346-467) ---------- -/

/-- One Notion block as built by block_from_tag. -/
inductive Block where
  | heading_1 (rich_text : List RichText)
  | heading_2 (rich_text : List RichText)
  | heading_3 (rich_text : List RichText)
  | paragraph (rich_text : List RichText)
  | bulleted_list_item (rich_text : List RichText)
  | numbered_list_item (rich_text : List RichText)
  | quote (rich_text : List RichText)
  | code (rich_text : List RichText) (language : String)
  | image (url : String)
deriving DecidableEq, Repr

/-- The three possible shapes of the block_from_tag return value:
None, a single block dict, or a list of blocks. -/
inductive BlockRes where
  | none
  | one (b : Block)
  | many (bs : List Block)
deriving DecidableEq, Repr

/-- Model of find_all(li, recursive False): the direct children that are
tags named li. -/
def findDirectLis (children : List Node) : List Node :=
  children.filter fun n => match n with
    | .tag nm _ _ => nm = "li"
    | .text _ => false

/-- The list-item loop of block_from_tag (src/ingest.py lines 374-382). -/
def list_items (bulleted : Bool) : List Node → Except PyErr (List Block)
  | [] => .ok []
  | li :: rest => do
    let rich ← build_rich_text_inline li defaultAnn none none
    let rt := if rich = [] then [text_obj "" defaultAnn] else rich
    let tl ← list_items bulleted rest
    .ok ((if bulleted then Block.bulleted_list_item rt else Block.numbered_list_item rt) :: tl)

mutual

/-- Embedding of block_from_tag (src/ingest.py lines 346-433). Note that the
img branch is guarded by tag.get(src) being truthy: an img without a truthy
src attribute falls through to the generic paragraph fallback rather than
being dropped. build_rich_text_inline is always invoked with default
arguments here, so base_url is not forwarded to inline conversion. -/
def block_from_tag : Node → Option String → Except PyErr BlockRes
  | .text _, _ => .error (.attributeError "NavigableString has no attribute name")
  | .tag name attrs children, base_url =>
    let nm := strLower name
    if nm = "h1" ∨ nm = "h2" ∨ nm = "h3" then do
      let rich ← build_rich_text_inline (.tag name attrs children) defaultAnn none none
      let rt := if rich = [] then [text_obj "" defaultAnn] else rich
      .ok (.one (if nm = "h1" then .heading_1 rt else if nm = "h2" then .heading_2 rt else .heading_3 rt))
    else if nm = "p" then do
      let rich ← build_rich_text_inline (.tag name attrs children) defaultAnn none none
      .ok (.one (.paragraph (if rich = [] then [text_obj "" defaultAnn] else rich)))
    else if nm = "ul" ∨ nm = "ol" then do
      let items ← list_items (nm = "ul") (findDirectLis children)
      .ok (.many items)
    else if nm = "blockquote" then do
      let rich ← build_rich_text_inline (.tag name attrs children) defaultAnn none none
      .ok (.one (.quote (if rich = [] then [text_obj "" defaultAnn] else rich)))
    else if nm = "pre" then
      .ok (.one (.code [text_obj (Node.getText "\n" (.tag name attrs children)) defaultAnn] "plain text"))
    else if nm = "img" ∧ truthyOpt (Node.attr (.tag name attrs children) "src") then
      match normalize_url (Node.attr (.tag name attrs children) "src") base_url with
      | some src => .ok (.one (.image src))
      | Option.none => .ok .none
    else if nm = "div" ∨ nm = "section" ∨ nm = "article" ∨ nm = "main" then do
      let bs ← container_blocks children base_url
      .ok (.many bs)
    else do
      let rich ← build_rich_text_inline (.tag name attrs children) defaultAnn none none
      .ok (.one (.paragraph (if rich = [] then [text_obj (Node.textContent (.tag name attrs children)) defaultAnn] else rich)))

/-- The generic-container loop of block_from_tag (src/ingest.py lines
408-426): bare non-whitespace text becomes a paragraph, child tags recurse
through block_from_tag with the same base_url, results are concatenated. -/
def container_blocks : List Node → Option String → Except PyErr (List Block)
  | [], _ => .ok []
  | .text s :: rest, base_url => do
    let tl ← container_blocks rest base_url
    .ok ((if pyStrip s ≠ "" then [Block.paragraph [text_obj s defaultAnn]] else []) ++ tl)
  | .tag n a c :: rest, base_url => do
    let res ← block_from_tag (.tag n a c) base_url
    let tl ← container_blocks rest base_url
    .ok ((match res with
          | .many bs => bs
          | .one b => [b]
          | .none => []) ++ tl)

end

/-- The per-child loop of html_to_blocks (src/ingest.py lines 445-465),
carried out over an accumulator: whitespace-only text nodes are skipped and
other text nodes append a paragraph, both continuing without the cap check;
tag children go through block_from_tag, lists extend and single blocks
append, and afterwards the loop stops if the accumulated count has reached
max_blocks. -/
def htb_go (base_url : Option String) (max_blocks : Nat) : List Node → List Block → Except PyErr (List Block)
  | [], acc => .ok acc
  | .text s :: rest, acc =>
    htb_go base_url max_blocks rest
      (if pyStrip s ≠ "" then acc ++ [Block.paragraph [text_obj s defaultAnn]] else acc)
  | .tag n a c :: rest, acc => do
    let res ← block_from_tag (.tag n a c) base_url
    let acc2 := match res with
      | .many bs => acc ++ bs
      | .one b => acc ++ [b]
      | .none => acc
    if acc2.length ≥ max_blocks then .ok acc2 else htb_go base_url max_blocks rest acc2

/-- Embedding of html_to_blocks (src/ingest.py lines 436-467). The input is
the list of direct children of the parsed document body; parsing the HTML
string is the external BeautifulSoup/lxml collaborator. The final Python
line filters falsy entries from the result; every block dict built above is
a non-empty dict and hence truthy, so that filter is the identity. -/
def html_to_blocks (body_children : List Node) (base_url : Option String) (max_blocks : Nat) : Except PyErr (List Block) :=
  htb_go base_url max_blocks body_children []

/-- A body child that cannot push the accumulated block count past the cap
check of html_to_blocks: a whitespace-only text node, or a tag whose
block_from_tag result is not a list. Non-whitespace text nodes are excluded
because the loop appends them and continues without reaching the cap
check. -/
def cap_safe (base : Option String) : Node → Bool
  | .text s => if pyStrip s = "" then true else false
  | .tag nm a c =>
    match block_from_tag (.tag nm a c) base with
    | .ok (.many _) => false
    | _ => true

/- ---------- Backoff (src/ingest.py lines 99-114) ---------- -/

/-- The sleep duration before retry number attempt: min(0.5 * 2 ** attempt, 8). -/
def waitFor (attempt : Nat) : ℚ := min ((1 / 2 : ℚ) * 2 ^ attempt) 8

/-- Observable outcome of backoff_call: the returned value or propagated
error status, the sequence of sleeps performed, and how many times the
wrapped function was invoked. -/
structure BackoffOut (α : Type) where
  result : Except Nat α
  waits : List ℚ
  calls : Nat
deriving DecidableEq, Repr

/-- The retry loop of backoff_call. Errors are APIResponseError status
codes; 429 is the rate-limit status. The Python loop keeps a counter
attempt starting at 0, increments it on each 429 and re-raises once
attempt exceeds max_retries; here the same test is carried structurally by
retries_left = max_retries - attempt, which is 0 exactly when the
incremented attempt would exceed max_retries. -/
def backoff_loop (fn : Nat → Except Nat α) : Nat → Nat → Nat → BackoffOut α
  | retries_left, attempt, idx =>
    match fn idx with
    | .ok a => ⟨.ok a, [], 1⟩
    | .error status =>
      if status = 429 then
        match retries_left with
        | 0 => ⟨.error status, [], 1⟩
        | r + 1 =>
          let rest := backoff_loop fn r (attempt + 1) (idx + 1)
          ⟨rest.result, waitFor (attempt + 1) :: rest.waits, rest.calls + 1⟩
      else ⟨.error status, [], 1⟩

/-- Embedding of backoff_call (src/ingest.py lines 99-114). The wrapped
callable is modelled as a function from the invocation index to its
outcome. -/
def backoff_call (fn : Nat → Except Nat α) (max_retries : Nat) : BackoffOut α :=
  backoff_loop fn max_retries 0 0

/-- The documented backoff wait sequence beginning after attempt a: the
sleeps waitFor (a + 1), waitFor (a + 2), and so on, for k retries. -/
def waitsFrom : Nat → Nat → List ℚ
  | _, 0 => []
  | a, k + 1 => waitFor (a + 1) :: waitsFrom (a + 1) k

/- ---------- Paginated write (src/ingest.py lines 172-182 and 575-582) ---------- -/

/-- The batching loop of append_blocks (src/ingest.py lines 172-182): the
sub-lists blocks[i : i + chunk_size] for i = 0, chunk_size, 2 chunk_size,
and so on. Fuel-based so the definition is structural; append_blocks is only
ever called with chunk_size 50. -/
def append_chunks_go (chunk_size : Nat) : Nat → List Block → List (List Block)
  | _, [] => []
  | 0, _ :: _ => []
  | fuel + 1, b :: bs => (b :: bs).take chunk_size :: append_chunks_go chunk_size fuel ((b :: bs).drop chunk_size)

def append_chunks (blocks : List Block) (chunk_size : Nat) : List (List Block) :=
  append_chunks_go chunk_size blocks.length blocks

/-- The write plan of main (src/ingest.py lines 575-582): create_page
receives children[:90]; when the remainder children[90:] is non-empty it is
handed to append_blocks with chunk_size 50. The first component is the
create_page payload, the second the per-call append payloads in order. -/
def write_plan (children : List Block) : List Block × List (List Block) :=
  let first := children.take 90
  let rest := children.drop 90
  (first, if rest = [] then [] else append_chunks rest 50)

/- ---------- Entry normalisation (src/ingest.py lines 473-505) ---------- -/

/-- One element of the entry tags list: either not a dict, or a dict whose
term lookup gives the contained value. -/
inductive TagEntry where
  | notDict
  | dict (term : Option String)
deriving DecidableEq, Repr

/-- A feedparser entry restricted to the fields parse_entry reads; none
models an absent key. -/
structure Entry where
  id : Option String
  guid : Option String
  link : Option String
  title : Option String
  author : Option String
  tags : List TagEntry
  published : Option String
deriving DecidableEq, Repr

/-- The normalised item dict parse_entry returns. -/
structure Item where
  title : String
  url : Option String
  published : Option String
  author : String
  tags : List String
  source : String
  guid : String
  hash : String
deriving DecidableEq, Repr

/-- The tags comprehension of parse_entry: terms of dict elements whose term
value is truthy. -/
def entryTags (ts : List TagEntry) : List String :=
  ts.filterMap fun t => match t with
    | .dict (some s) => if s = "" then none else some s
    | _ => none

/-- Embedding of parse_entry (src/ingest.py lines 473-505). The dateutil
parser is the external collaborator dateParse: ok gives the isoformat
string, error models a parse exception, which parse_entry swallows leaving
published = None. In the hash input, guid or the empty string equals guid
itself because guid is already a string. -/
def parse_entry (dateParse : String → Except Unit String) (e : Entry) (feed_title feed_url : String) : Item :=
  let title := match e.title with
    | none => "(no title)"
    | some t => t
  let link := e.link
  let guid := if truthyOpt e.id then e.id.getD ""
              else if truthyOpt e.guid then e.guid.getD ""
              else pyStr link
  let author := e.author.getD ""
  let tags := entryTags e.tags
  let published := match e.published with
    | none => none
    | some p => match dateParse p with
      | .ok iso => some iso
      | .error _ => none
  let h := String.mk ((sha256hexChars (pyJoin "|" [guid, link.getD "", title])).take 24)
  ⟨title, link, published, author, tags,
   (if feed_title = "" then feed_url else feed_title), guid, h⟩

/- ---------- Orchestrator content fallback (src/ingest.py lines 564-573) ---------- -/

/-- The children-selection step of main (src/ingest.py lines 564-573):
children = html_to_blocks(html, base_url = item url) if html else [], then
if children is empty a single fallback paragraph is substituted. The html
argument models the resolved content, already parsed to the body children of
a DOM; none models a falsy html value (no feed HTML and no fetched article
body). -/
def entry_children (html : Option (List Node)) (url : Option String) : Except PyErr (List Block) := do
  let children ← match html with
    | some doc => html_to_blocks doc url 180
    | none => pure []
  if children = [] then
    pure [Block.paragraph [text_obj ("Open on the web: " ++ (if truthyOpt url then url.getD "" else "No URL")) defaultAnn]]
  else pure children

/- ================= Helper lemmas ================= -/

theorem string_mk_length (cs : List Char) : (String.mk cs).length = cs.length := rfl

theorem sha256hexChars_length (s : String) : (sha256hexChars s).length = 64 := by
  simp [sha256hexChars, SHA256.hexOfHash, SHA256.hexWord]

theorem truthyOpt_getD_ne {o : Option String} (h : truthyOpt o = true) : o.getD "" ≠ "" := by
  cases o with
  | none => simp [truthyOpt] at h
  | some s =>
    by_cases hs : s = ""
    · simp [truthyOpt, hs] at h
    · simpa using hs

theorem parse_entry_guid_eq (dp : String → Except Unit String) (e : Entry) (ft fu : String) :
    (parse_entry dp e ft fu).guid =
      (if truthyOpt e.id then e.id.getD ""
       else if truthyOpt e.guid then e.guid.getD "" else pyStr e.link) := rfl

/- ================= Claim theorems ================= -/

/-- C1: the claim says build_rich_text_inline accumulates inherited and
path annotations, and that the input b around i around the text x yields one
span with bold and italic true. The code instead reads the local new_href,
which is assigned only in the anchor branch, when recursing into the
children of the bold element, so the call raises UnboundLocalError; this
theorem evaluates the embedded code at exactly that failing input. -/
theorem c1_annotation_accumulation_crash :
    build_rich_text_inline (.tag "b" [] [.tag "i" [] [.text "x"]]) defaultAnn none none
      = .error (.unboundLocal "new_href") := by decide

/-- C2 counterexample: with a base URL supplied, normalize_url returns the
urljoin result without re-checking the scheme, so an ftp URL is kept, and
therefore the claim that URL normalisation keeps only http or https results
for every href and base URL is false at this input. -/
theorem c2_counterexample :
    normalize_url (some "ftp://host/x") (some "http://example.com/") = some "ftp://host/x"
  ∧ (urlparse "ftp://host/x").scheme = "ftp" := ⟨by decide, by decide⟩

/-- C2 amended: hrefs whose stripped form starts with javascript:, data:,
about: or a fragment always yield no link, whatever the base URL; without a
truthy base URL a kept result is the stripped href and has scheme http or
https with a non-empty network location; a None href yields no link; and the
anchor with the javascript href produces spans with no link target, the
anchor text emitted as plain text (twice, owing to the duplication defect in
the tag branch). Only with a base URL is the joined result returned without
a scheme re-check. -/
theorem c2_link_filtering_amended :
    (∀ (h : String) (base : Option String),
        (strStarts (pyStrip h) "javascript:" = true ∨ strStarts (pyStrip h) "data:" = true
          ∨ strStarts (pyStrip h) "about:" = true ∨ strStarts (pyStrip h) "#" = true) →
        normalize_url (some h) base = none)
  ∧ (∀ (h r : String) (base : Option String), truthyOpt base = false →
        normalize_url (some h) base = some r →
        r = pyStrip h ∧ ((urlparse r).scheme = "http" ∨ (urlparse r).scheme = "https")
          ∧ (urlparse r).netloc ≠ "")
  ∧ (∀ base : Option String, normalize_url none base = none)
  ∧ build_rich_text_inline (.tag "a" [("href", "javascript:alert(1)")] [.text "x"]) defaultAnn none none
      = .ok [text_obj "x" defaultAnn, text_obj "x" defaultAnn] := by
  refine ⟨?_, ?_, fun base => rfl, by decide⟩
  · intro h base hstart
    simp only [normalize_url]
    by_cases h0 : h = ""
    · simp [h0]
    · rw [if_neg h0]
      have hc : (strStarts (pyStrip h) "javascript:" || strStarts (pyStrip h) "data:"
          || strStarts (pyStrip h) "about:" || strStarts (pyStrip h) "#") = true := by
        rcases hstart with h1 | h1 | h1 | h1 <;> simp [h1]
      rw [if_pos hc]
  · intro h r base hb hnorm
    simp only [normalize_url] at hnorm
    by_cases h0 : h = ""
    · rw [if_pos h0] at hnorm; cases hnorm
    · rw [if_neg h0] at hnorm
      by_cases hst : (strStarts (pyStrip h) "javascript:" || strStarts (pyStrip h) "data:"
          || strStarts (pyStrip h) "about:" || strStarts (pyStrip h) "#") = true
      · rw [if_pos hst] at hnorm; cases hnorm
      · rw [if_neg hst, if_neg (by simp [hb])] at hnorm
        by_cases hcond : ((urlparse (pyStrip h)).scheme = "http" ∨ (urlparse (pyStrip h)).scheme = "https")
            ∧ (urlparse (pyStrip h)).netloc ≠ ""
        · rw [if_pos hcond] at hnorm
          cases hnorm
          exact ⟨rfl, hcond.1, hcond.2⟩
        · rw [if_neg hcond] at hnorm; cases hnorm

/-- C2 witness: the blocked-prefix conjunct applied at the javascript href
with no base URL. -/
theorem c2_witness : normalize_url (some "javascript:alert(1)") none = none :=
  c2_link_filtering_amended.1 "javascript:alert(1)" none (Or.inl (by decide))

/-- C6 counterexample: the dedup key hashes the plain concatenation of the
feed URL with (guid or link or empty), so the distinct feeds a and ab with
the identical guid None collide when their links are b and the empty string:
both keys hash the string ab. This refutes the claim that distinct feed URLs
with an identical guid always produce different keys. -/
theorem c6_counterexample :
    seen_key "a" none (some "b") = seen_key "ab" none (some "")
  ∧ ("a" : String) ≠ "ab" := ⟨rfl, by decide⟩

/-- C6 amended: seen_key is a pure function of its three arguments (equal
inputs give equal keys) and always returns a key of fixed length 32; the
distinctness of keys across feeds is not guaranteed, because the
concatenation feed_url and guid-or-link is ambiguous (see the
counterexample), and for truthy guids it rests on truncated-SHA-256
collision resistance rather than on structure. -/
theorem c6_dedup_key_amended :
    (∀ (f1 f2 : String) (g1 g2 l1 l2 : Option String), f1 = f2 → g1 = g2 → l1 = l2 →
        seen_key f1 g1 l1 = seen_key f2 g2 l2)
  ∧ (∀ (f : String) (g l : Option String), (seen_key f g l).length = 32) := by
  constructor
  · intro f1 f2 g1 g2 l1 l2 h1 h2 h3
    rw [h1, h2, h3]
  · intro f g l
    simp only [seen_key]
    rw [string_mk_length, List.length_take, sha256hexChars_length]
    norm_num

/-- C6 witness: determinism applied at a concrete input. -/
theorem c6_witness : seen_key "f" (some "g") none = seen_key "f" (some "g") none :=
  c6_dedup_key_amended.1 "f" "f" (some "g") (some "g") none none rfl rfl rfl

/-- C7 counterexample: the state loader catches only JSONDecodeError, so a
state file whose content is the valid JSON number 5 reaches set(5), which
raises TypeError; loading such corrupt content is an exception, not an empty
set, refuting the claim that any malformed or corrupt content results in an
empty set and never an exception. -/
theorem c7_counterexample :
    load_state (some (.ok (Json.num 5))) = .error (.typeError "not iterable") := by decide

/-- C7 amended: an absent state file yields the empty set without logging; a
file whose content fails JSON parsing yields the empty set with an error
logged; content that parses to a JSON array of hashable elements yields that
set; but content parsing to a non-iterable JSON value raises TypeError (see
the counterexample). -/
theorem c7_state_load_amended :
    load_state none = .ok ([], false)
  ∧ (∀ e : Unit, load_state (some (.error e)) = .ok ([], true))
  ∧ (∀ xs : List JsonElem, xs.all JsonElem.hashable = true →
      load_state (some (.ok (.arr xs))) = .ok (xs.dedup, false)) := by
  refine ⟨rfl, fun e => rfl, fun xs h => ?_⟩
  simp [load_state, pySet, h]

/-- C7 witness: the array conjunct applied at a one-element string array. -/
theorem c7_witness :
    load_state (some (.ok (.arr [JsonElem.str "k"]))) = .ok (([JsonElem.str "k"]).dedup, false) :=
  c7_state_load_amended.2.2 [JsonElem.str "k"] (by decide)

/-- C8: when no content-resolution source yields HTML (the html value is
falsy) the orchestrator produces exactly one paragraph block, with text
Open on the web: followed by the URL when the URL is truthy, and
Open on the web: No URL when the URL is absent or empty. -/
theorem c8_fallback_paragraph :
    (∀ u : String, truthyOpt (some u) = true →
      entry_children none (some u)
        = .ok [Block.paragraph [text_obj ("Open on the web: " ++ u) defaultAnn]])
  ∧ (∀ url : Option String, truthyOpt url = false →
      entry_children none url
        = .ok [Block.paragraph [text_obj "Open on the web: No URL" defaultAnn]]) := by
  constructor
  · intro u hu
    simp [entry_children, hu]
    rfl
  · intro url hu
    simp [entry_children, hu]
    rfl

/-- C8 witness: the fallback applied at a concrete URL and at an absent URL. -/
theorem c8_witness :
    entry_children none (some "http://u")
      = .ok [Block.paragraph [text_obj ("Open on the web: " ++ "http://u") defaultAnn]] :=
  c8_fallback_paragraph.1 "http://u" (by decide)

/-- C9 counterexample: an img element without a src attribute is not
dropped: it falls through the guarded img branch to the generic fallback and
yields a paragraph block with one empty span, refuting the claim that an img
whose src is missing yields no block at all. -/
theorem c9_counterexample :
    block_from_tag (Node.tag "img" [] []) none
      = .ok (.one (.paragraph [text_obj "" defaultAnn]))
  ∧ (.ok (.one (.paragraph [text_obj "" defaultAnn])) : Except PyErr BlockRes)
      ≠ .ok .none := ⟨by decide, by decide⟩

/-- C9 amended: an img with a truthy src attribute yields an image block
when the src passes the same normalisation rule as links and yields no block
when normalisation drops the src; an img without a truthy src attribute
instead falls through to the generic fallback and yields a paragraph block
with one empty span. -/
theorem c9_image_amended :
    (∀ (attrs : List (String × String)) (base : Option String) (u : String),
        truthyOpt (Node.attr (.tag "img" attrs []) "src") = true →
        normalize_url (Node.attr (.tag "img" attrs []) "src") base = some u →
        block_from_tag (.tag "img" attrs []) base = .ok (.one (.image u)))
  ∧ (∀ (attrs : List (String × String)) (base : Option String),
        truthyOpt (Node.attr (.tag "img" attrs []) "src") = true →
        normalize_url (Node.attr (.tag "img" attrs []) "src") base = none →
        block_from_tag (.tag "img" attrs []) base = .ok .none)
  ∧ (∀ (attrs : List (String × String)) (base : Option String),
        truthyOpt (Node.attr (.tag "img" attrs []) "src") = false →
        block_from_tag (.tag "img" attrs []) base = .ok (.one (.paragraph [text_obj "" defaultAnn]))) := by
  refine ⟨?_, ?_, ?_⟩
  · intro attrs base u htr hnorm
    simp +decide [block_from_tag, htr, hnorm]
  · intro attrs base htr hnorm
    simp +decide [block_from_tag, htr, hnorm]
  · intro attrs base htr
    simp +decide [block_from_tag, htr, build_rich_text_inline, Node.textContent, Node.getText,
      Node.strings, Node.stringsList, pyJoin, INLINE_TAGS]

/-- C9 witness: the three branches applied at concrete img elements. -/
theorem c9_witness :
    block_from_tag (.tag "img" [("src", "http://h/i.png")] []) none
      = .ok (.one (.image "http://h/i.png")) :=
  c9_image_amended.1 [("src", "http://h/i.png")] none "http://h/i.png" (by decide) (by decide)

/-- C10 counterexample: an entry whose id and guid are absent and whose link
is present but equal to the empty string receives str of the empty string,
that is the empty string, as its guid, refuting the universal claim that
parse_entry assigns a non-empty guid to every entry. -/
theorem c10_counterexample :
    (parse_entry (fun _ => .error ()) ⟨none, none, some "", none, none, [], none⟩ "t" "u").guid
      = "" := by decide

/-- C10 amended: parse_entry always assigns a string guid: the id value when
truthy, else the guid value when truthy, else str of the link; with no
truthy id or guid and a missing link the guid is the literal string None;
the guid is non-empty whenever the link is not the present-but-empty
string. -/
theorem c10_guid_amended :
    (∀ (dp : String → Except Unit String) (e : Entry) (ft fu : String),
        (parse_entry dp e ft fu).guid =
          (if truthyOpt e.id then e.id.getD ""
           else if truthyOpt e.guid then e.guid.getD "" else pyStr e.link))
  ∧ (∀ (dp : String → Except Unit String) (e : Entry) (ft fu : String),
        truthyOpt e.id = false → truthyOpt e.guid = false → e.link = none →
        (parse_entry dp e ft fu).guid = "None")
  ∧ (∀ (dp : String → Except Unit String) (e : Entry) (ft fu : String),
        e.link ≠ some "" → (parse_entry dp e ft fu).guid ≠ "") := by
  refine ⟨fun dp e ft fu => parse_entry_guid_eq dp e ft fu, ?_, ?_⟩
  · intro dp e ft fu h1 h2 h3
    rw [parse_entry_guid_eq, h1, h2, h3]
    rfl
  · intro dp e ft fu hlink
    rw [parse_entry_guid_eq]
    by_cases hid : truthyOpt e.id = true
    · rw [if_pos hid]
      exact truthyOpt_getD_ne hid
    · rw [if_neg hid]
      by_cases hg : truthyOpt e.guid = true
      · rw [if_pos hg]
        exact truthyOpt_getD_ne hg
      · rw [if_neg hg]
        cases hl : e.link with
        | none => simp [pyStr]
        | some s =>
          have : s ≠ "" := by
            intro hs
            exact hlink (by rw [hl, hs])
          simpa [pyStr] using this

/-- C10 witness: the missing-link conjunct applied at a concrete entry with
no id, no guid and no link. -/
theorem c10_witness :
    (parse_entry (fun _ => .error ()) ⟨none, none, none, none, none, [], none⟩ "t" "u").guid
      = "None" :=
  c10_guid_amended.2.1 (fun _ => .error ()) ⟨none, none, none, none, none, [], none⟩ "t" "u" rfl rfl rfl

/- ================= Backoff lemmas and C4 ================= -/

theorem waitFor_le_eight (n : Nat) : waitFor n ≤ 8 := min_le_right _ _

theorem waitFor_mono {a b : Nat} (h : a ≤ b) : waitFor a ≤ waitFor b := by
  unfold waitFor
  apply min_le_min _ le_rfl
  have h2 : (2 : ℚ) ^ a ≤ 2 ^ b := pow_le_pow_right₀ (by norm_num) h
  linarith

theorem waitsFrom_le_eight : ∀ (a k : Nat) (w : ℚ), w ∈ waitsFrom a k → w ≤ 8 := by
  intro a k
  induction k generalizing a with
  | zero => intro w hw; simp [waitsFrom] at hw
  | succ k ih =>
    intro w hw
    rw [waitsFrom] at hw
    rcases List.mem_cons.mp hw with h | h
    · rw [h]; exact waitFor_le_eight _
    · exact ih (a + 1) w h

theorem waitsFrom_chain : ∀ (a k : Nat), List.Chain' (· ≤ ·) (waitsFrom a k) := by
  intro a k
  induction k generalizing a with
  | zero => simp [waitsFrom]
  | succ k ih =>
    cases k with
    | zero => simp [waitsFrom]
    | succ k2 =>
      rw [waitsFrom, List.chain'_cons']
      refine ⟨?_, ih (a + 1)⟩
      intro b hb
      rw [waitsFrom] at hb
      simp only [List.head?_cons, Option.mem_def, Option.some.injEq] at hb
      rw [← hb]
      exact waitFor_mono (by omega)

theorem backoff_loop_waits {α : Type} (fn : Nat → Except Nat α) :
    ∀ (r a i : Nat), ∃ k, (backoff_loop fn r a i).waits = waitsFrom a k := by
  intro r
  induction r with
  | zero =>
    intro a i
    refine ⟨0, ?_⟩
    rw [backoff_loop]
    cases hfn : fn i with
    | ok v => rfl
    | error s => by_cases h : s = 429 <;> simp [h, waitsFrom]
  | succ r ih =>
    intro a i
    rw [backoff_loop]
    cases hfn : fn i with
    | ok v => exact ⟨0, rfl⟩
    | error s =>
      by_cases h : s = 429
      · subst h
        obtain ⟨k, hk⟩ := ih (a + 1) (i + 1)
        refine ⟨k + 1, ?_⟩
        simpa [waitsFrom] using hk
      · exact ⟨0, by simp [h, waitsFrom]⟩

/-- C4: every backoff behaviour the claim describes holds of the embedded
backoff_call: a non-rate-limit error propagates immediately after one call
with no waiting; the waits always form the documented sequence
min(0.5 * 2 ** attempt, 8) for attempt = 1, 2, ...; every wait is at most 8
and the wait sequence is non-decreasing; on three 429 responses followed by
success the call returns the success after 4 attempts with waits 1, 2, 4;
and on persistent 429 the error propagates after max_retries = 8 retries,
that is 9 calls, with the waits capped at 8. -/
theorem c4_backoff_policy :
    (∀ (fn : Nat → Except Nat Nat) (mr s : Nat), fn 0 = .error s → s ≠ 429 →
        backoff_call fn mr = ⟨.error s, [], 1⟩)
  ∧ (∀ (fn : Nat → Except Nat Nat) (mr : Nat), ∃ k,
        (backoff_call fn mr).waits = waitsFrom 0 k)
  ∧ (∀ (fn : Nat → Except Nat Nat) (mr : Nat) (w : ℚ),
        w ∈ (backoff_call fn mr).waits → w ≤ 8)
  ∧ (∀ (fn : Nat → Except Nat Nat) (mr : Nat),
        List.Chain' (· ≤ ·) (backoff_call fn mr).waits)
  ∧ backoff_call (fun i => if i < 3 then .error 429 else .ok 0) 8 = ⟨.ok 0, [1, 2, 4], 4⟩
  ∧ backoff_call (fun _ => (.error 429 : Except Nat Nat)) 8
      = ⟨.error 429, [1, 2, 4, 8, 8, 8, 8, 8], 9⟩ := by
  refine ⟨?_, ?_, ?_, ?_, ?_, ?_⟩
  · intro fn mr s h hne
    rw [backoff_call, backoff_loop, h]
    simp [hne]
  · intro fn mr
    exact backoff_loop_waits fn mr 0 0
  · intro fn mr w hw
    obtain ⟨k, hk⟩ := backoff_loop_waits fn mr 0 0
    rw [backoff_call] at hw
    rw [hk] at hw
    exact waitsFrom_le_eight 0 k w hw
  · intro fn mr
    obtain ⟨k, hk⟩ := backoff_loop_waits fn mr 0 0
    rw [backoff_call, hk]
    exact waitsFrom_chain 0 k
  · norm_num [backoff_call, backoff_loop, waitFor]
  · norm_num [backoff_call, backoff_loop, waitFor]

/-- C4 witness: immediate propagation applied at a concrete status-500
outcome. -/
theorem c4_witness :
    backoff_call (fun _ => (.error 500 : Except Nat Nat)) 8 = ⟨.error 500, [], 1⟩ :=
  c4_backoff_policy.1 (fun _ => .error 500) 8 500 rfl (by decide)

/- ================= Chunking lemmas and C5 ================= -/

theorem append_chunks_go_flatten (cs : Nat) (hcs : 0 < cs) :
    ∀ (fuel : Nat) (bs : List Block), bs.length ≤ fuel →
      (append_chunks_go cs fuel bs).flatten = bs := by
  intro fuel
  induction fuel with
  | zero =>
    intro bs h
    cases bs with
    | nil => rfl
    | cons b tl => simp at h
  | succ f ih =>
    intro bs h
    cases bs with
    | nil => rfl
    | cons b tl =>
      simp only [append_chunks_go, List.flatten_cons]
      rw [ih ((b :: tl).drop cs) (by simp at h ⊢; omega)]
      exact List.take_append_drop cs (b :: tl)

theorem append_chunks_go_le (cs : Nat) :
    ∀ (fuel : Nat) (bs : List Block) (c : List Block),
      c ∈ append_chunks_go cs fuel bs → c.length ≤ cs := by
  intro fuel
  induction fuel with
  | zero =>
    intro bs c hc
    cases bs <;> simp [append_chunks_go] at hc
  | succ f ih =>
    intro bs c hc
    cases bs with
    | nil => simp [append_chunks_go] at hc
    | cons b tl =>
      simp only [append_chunks_go] at hc
      rcases List.mem_cons.mp hc with h | h
      · rw [h, List.length_take]
        exact Nat.min_le_left _ _
      · exact ih _ c h

theorem append_chunks_single (bs : List Block) (cs : Nat) (hne : bs ≠ []) (hle : bs.length ≤ cs) :
    append_chunks bs cs = [bs] := by
  cases bs with
  | nil => exact absurd rfl hne
  | cons b tl =>
    unfold append_chunks
    simp only [List.length_cons, append_chunks_go]
    rw [List.take_of_length_le hle, List.drop_eq_nil_of_le hle]
    simp [append_chunks_go]

/-- C5: the write plan of main sends exactly children[:90] (hence at most 90
blocks) to create_page; the appended chunks concatenate, in order, to
exactly the remaining blocks children[90:], each chunk holding at most 50
blocks; and for 140 converted blocks the first 90 go to create_page and
append_blocks receives the remaining 50 in a single chunk. -/
theorem c5_chunked_write :
    (∀ children : List Block,
        (write_plan children).1 = children.take 90 ∧ (write_plan children).1.length ≤ 90)
  ∧ (∀ children : List Block,
        ((write_plan children).2.flatten = children.drop 90)
      ∧ ∀ c ∈ (write_plan children).2, c.length ≤ 50)
  ∧ (∀ children : List Block, children.length = 140 →
        (write_plan children).1 = children.take 90 ∧ (write_plan children).1.length = 90
      ∧ (write_plan children).2 = [children.drop 90] ∧ (children.drop 90).length = 50) := by
  refine ⟨fun children => ⟨rfl, ?_⟩, fun children => ⟨?_, ?_⟩, fun children h => ?_⟩
  · simp only [write_plan, List.length_take]
    exact Nat.min_le_left _ _
  · by_cases hr : children.drop 90 = []
    · simp [write_plan, hr]
    · simp only [write_plan, if_neg hr]
      exact append_chunks_go_flatten 50 (by norm_num) _ _ le_rfl
  · intro c hc
    by_cases hr : children.drop 90 = []
    · simp [write_plan, hr] at hc
    · simp only [write_plan, if_neg hr] at hc
      exact append_chunks_go_le 50 _ _ c hc
  · have h1 : (children.take 90).length = 90 := by rw [List.length_take]; omega
    have hd : (children.drop 90).length = 50 := by rw [List.length_drop]; omega
    have hne : children.drop 90 ≠ [] := by
      intro hx
      rw [hx] at hd
      simp at hd
    refine ⟨rfl, h1, ?_, hd⟩
    simp only [write_plan, if_neg hne]
    exact append_chunks_single _ 50 hne (by omega)

/-- C5 witness: the 140-block conjunct applied at a concrete list of 140
paragraph blocks. -/
theorem c5_witness :
    (write_plan (List.replicate 140 (Block.paragraph []))).2
      = [(List.replicate 140 (Block.paragraph [])).drop 90]
  ∧ ((List.replicate 140 (Block.paragraph [])).drop 90).length = 50 :=
  ⟨(c5_chunked_write.2.2 (List.replicate 140 (Block.paragraph [])) (by simp)).2.2.1,
   (c5_chunked_write.2.2 (List.replicate 140 (Block.paragraph [])) (by simp)).2.2.2⟩

/- ================= Cap lemmas and C3 ================= -/

theorem htb_go_le (base : Option String) (mb : Nat) :
    ∀ (children : List Node) (acc : List Block), acc.length < mb →
      (∀ n ∈ children, cap_safe base n = true) →
      ∀ bs, htb_go base mb children acc = .ok bs → bs.length ≤ mb := by
  intro children
  induction children with
  | nil =>
    intro acc hlt hsafe bs h
    simp only [htb_go, Except.ok.injEq] at h
    subst h
    omega
  | cons n rest ih =>
    intro acc hlt hsafe bs h
    have hn := hsafe n (List.mem_cons_self _ _)
    have hrest : ∀ m ∈ rest, cap_safe base m = true :=
      fun m hm => hsafe m (List.mem_cons_of_mem _ hm)
    cases n with
    | text s =>
      have hs : pyStrip s = "" := by
        by_cases hx : pyStrip s = ""
        · exact hx
        · simp [cap_safe, hx] at hn
      simp only [htb_go] at h
      rw [if_neg (by simp [hs])] at h
      exact ih acc hlt hrest bs h
    | tag nm a c =>
      simp only [htb_go] at h
      cases hb : block_from_tag (.tag nm a c) base with
      | error e =>
        rw [hb] at h
        simp [bind, Except.bind] at h
      | ok res =>
        rw [hb] at h
        simp only [bind, Except.bind] at h
        cases res with
        | many bs2 => simp [cap_safe, hb] at hn
        | one b =>
          by_cases hc : (acc ++ [b]).length ≥ mb
          · rw [if_pos hc] at h
            simp only [Except.ok.injEq] at h
            subst h
            simp only [List.length_append, List.length_cons, List.length_nil]
            omega
          · rw [if_neg hc] at h
            apply ih (acc ++ [b]) ?_ hrest bs h
            simp only [List.length_append, List.length_cons, List.length_nil] at hc ⊢
            omega
        | none =>
          by_cases hc : acc.length ≥ mb
          · exact absurd hc (by omega)
          · rw [if_neg hc] at h
            exact ih acc hlt hrest bs h

/-- C3 counterexample: the cap check of html_to_blocks runs only after a
whole block list has been appended, so one top-level list with 181 items
yields 181 blocks, exceeding the default cap of 180; and the claimed
document of 300 non-empty top-level paragraphs does not return 180 blocks at
all but raises UnboundLocalError out of the inline builder. -/
theorem c3_counterexample :
    (html_to_blocks [Node.tag "ul" [] (List.replicate 181 (Node.tag "li" [] []))] none 180
        = .ok (List.replicate 181 (Block.bulleted_list_item [text_obj "" defaultAnn]))
     ∧ 180 < (List.replicate 181 (Block.bulleted_list_item [text_obj "" defaultAnn])).length)
  ∧ html_to_blocks (List.replicate 300 (Node.tag "p" [] [Node.text "x"])) none 180
      = .error (.unboundLocal "new_href") :=
  ⟨⟨by decide, by simp⟩, by decide⟩

/-- C3 amended: the cap is enforced only between top-level children, so when
every top-level child is cap-safe (a whitespace text node, or a tag whose
result is not a list) the output has at most max_blocks blocks for any
positive cap; a single child yielding a block list can exceed the cap and
non-whitespace text children bypass the check (see the counterexample); a
document of 300 empty top-level paragraphs yields exactly the first 180
blocks in document order (non-empty paragraphs instead raise
UnboundLocalError from the inline builder). -/
theorem c3_block_cap_amended :
    (∀ (children : List Node) (base : Option String) (mb : Nat) (bs : List Block),
        1 ≤ mb → (∀ n ∈ children, cap_safe base n = true) →
        html_to_blocks children base mb = .ok bs → bs.length ≤ mb)
  ∧ html_to_blocks (List.replicate 300 (Node.tag "p" [] [])) none 180
      = .ok (List.replicate 180 (Block.paragraph [text_obj "" defaultAnn])) := by
  constructor
  · intro children base mb bs hmb hsafe h
    exact htb_go_le base mb children [] (by simpa using hmb) hsafe bs h
  · decide

/-- C3 witness: the cap bound applied at one empty paragraph with cap 1. -/
theorem c3_witness :
    html_to_blocks [Node.tag "p" [] []] none 1 = .ok [Block.paragraph [text_obj "" defaultAnn]]
  ∧ [Block.paragraph [text_obj "" defaultAnn]].length ≤ 1 :=
  ⟨by decide,
   c3_block_cap_amended.1 [Node.tag "p" [] []] none 1 [Block.paragraph [text_obj "" defaultAnn]]
     (by decide) (by decide) (by decide)⟩
